import Mathlib

/-!
Shallow embedding of multipass's persisted-settings registry
(src/utils/settings.cpp) and of its simple-streams manifest parser
(src/simplestreams/simple_streams_manifest.cpp), together with theorems
settling the spec claims about them.
-/

/-- ASCII lowercasing; models `QString::toLower` on the ASCII inputs relevant
here (the boolean alias tokens and `true`/`false` are all ASCII, and no
non-ASCII character lowercases to an ASCII one). -/
def strToLower (s : String) : String := String.mk (s.data.map Char.toLower)

/-- Association-list lookup: the read view of a `std::map` / `QSettings` key
lookup used throughout the embedding. -/
def alist_get (m : List (String × String)) (k : String) : Option String :=
  match m with
  | [] => none
  | (k', v) :: rest => if k = k' then some v else alist_get rest k

/-- Map update with `insert_or_assign` semantics: replace the value at `k` in
place, or append the pair when `k` is absent. -/
def alist_put (m : List (String × String)) (k v : String) : List (String × String) :=
  match m with
  | [] => [(k, v)]
  | (k', v') :: rest => if k = k' then (k, v) :: rest else (k', v') :: alist_put rest k v

/-- Modelled from the spec: the setting-key name constants come from
`multipass/constants.h`, which is not among the provided sources. The spec
fixes the scope discipline (daemon-scope keys under the `local` namespace,
client-scope keys under `client`); concrete spellings follow that. -/
def petenv_key : String := "client.primary-name"

def driver_key : String := "local.driver"

def autostart_key : String := "client.autostart"

def hotkey_key : String := "client.hotkey"

def bridged_interface_key : String := "local.bridged-network"

def mounts_key : String := "local.privileged-mounts"

def winterm_key : String := "client.winterm"

/-- From settings.cpp: file-scope constant `daemon_root`. -/
def daemon_root : String := "local"

/-- From settings.cpp: file-scope constant `client_root`. -/
def client_root : String := "client"

/-- From settings.cpp: file-scope constant `petenv_name`. -/
def petenv_name : String := "primary"

/-- From settings.cpp: file-scope constant `autostart_default`. -/
def autostart_default : String := "true"

/-- The external collaborators consumed by settings.cpp (platform capability
provider, hostname validator from utils, standard-paths file locations), kept
abstract as in the source's narrow interfaces. -/
structure Env where
  default_driver : String
  default_privileged_mounts : String
  hotkey_default_text : String
  extra_settings_defaults : List (String × String)
  is_backend_supported : String → Bool
  interpret_setting : String → String → String
  valid_hostname : String → Bool
  daemon_file_path : String
  client_file_path : String

/-- Embeds `make_defaults` (settings.cpp lines 52-65): the fixed default map,
then each platform extra merged with `insert_or_assign` (overwrite). -/
def make_defaults (env : Env) : List (String × String) :=
  let base := [(petenv_key, petenv_name), (driver_key, env.default_driver),
               (autostart_key, autostart_default), (hotkey_key, env.hotkey_default_text),
               (bridged_interface_key, ""), (mounts_key, env.default_privileged_mounts)]
  env.extra_settings_defaults.foldl (fun m kv => alist_put m kv.1 kv.2) base

/-- Embeds `interpret_bool` (settings.cpp lines 139-151). -/
def interpret_bool (val : String) : String :=
  let v := strToLower val
  if v = "on" ∨ v = "yes" ∨ v = "1" then "true"
  else if v = "off" ∨ v = "no" ∨ v = "0" then "false"
  else v

/-- The `QSettings::Status` enumeration. -/
inductive QStatus where
  | noError
  | accessError
  | formatError
deriving DecidableEq, Repr

/-- One backing file: its persisted key/value content, the status its store
handle reports, and the outcome of the raw open-for-reading probe (`probeFail`
with the `errno` the failed open leaves, 0 when the platform sets none). -/
structure StoreFile where
  persisted : List (String × String)
  status : QStatus
  probeFail : Bool
  probeErrno : Nat
deriving DecidableEq, Repr

/-- The two scope files (daemon and client) of the registry. -/
structure SysState where
  daemonFile : StoreFile
  clientFile : StoreFile
deriving DecidableEq, Repr

/-- Scope routing test from `file_for` (settings.cpp line 86):
`key.startsWith(daemon_root)`. -/
def keyScopeIsDaemon (key : String) : Bool := daemon_root.data.isPrefixOf key.data

/-- Embeds `file_for` (settings.cpp lines 75-87): daemon-scope keys map to the
daemon file path, all others to the client file path. -/
def file_for (env : Env) (key : String) : String :=
  if keyScopeIsDaemon key then env.daemon_file_path else env.client_file_path

/-- The backing file a key's scope selects. -/
def scopeFile (st : SysState) (key : String) : StoreFile :=
  if keyScopeIsDaemon key then st.daemonFile else st.clientFile

/-- Replace the backing file a key's scope selects. -/
def setScopeFile (st : SysState) (key : String) (f : StoreFile) : SysState :=
  if keyScopeIsDaemon key then { st with daemonFile := f } else { st with clientFile := f }

/-- The POSIX errno value for a missing file. -/
def ENOENT : Nat := 2

/-- Embeds `exists_but_unreadable` (settings.cpp lines 97-106): the raw open
probe failed, with a nonzero errno different from ENOENT. -/
def exists_but_unreadable (f : StoreFile) : Bool :=
  f.probeFail && f.probeErrno != 0 && f.probeErrno != ENOENT

/-- The error taxonomy of the settings registry. -/
inductive SettingsError where
  | unrecognizedSetting (key : String)
  | invalidSetting (key val reason : String)
  | persistentSettings (op msg : String)
deriving DecidableEq, Repr

/-- Message of the format-error branch of `check_status`. -/
def format_error_msg : String := "format error"

/-- Message of the access-error branch of `check_status`. -/
def access_error_msg : String := "access error (consider running with an administrative role)"

/-- Embeds the decision of `check_status` (settings.cpp lines 108-116): throw
when the store status is bad or the file exists but is unreadable, tagging
format errors and everything else as access errors. -/
def check_status_error (f : StoreFile) (op : String) : Option SettingsError :=
  if f.status ≠ QStatus.noError ∨ exists_but_unreadable f = true then
    some (.persistentSettings op
      (if f.status = QStatus.formatError then format_error_msg else access_error_msg))
  else none

/-- The observable I/O and locking events of one registry call, recorded to
settle the ordering and no-I/O claims. -/
inductive Event where
  | openStore (path : String)
  | lockAcquire
  | lockRelease
  | storeValue (key : String)
  | storeSetValue (key val : String)
  | syncStore
  | statusQuery
  | probeOpen (path : String)
deriving DecidableEq, Repr

/-- Events of `check_status`: the status query, and the read probe, which the
short-circuit on line 111 only reaches when the status is clean. -/
def check_status_events (f : StoreFile) (path : String) : List Event :=
  Event.statusQuery :: (if f.status = QStatus.noError then [Event.probeOpen path] else [])

/-- Result of one registry call: the returned value or thrown error, the
system state after the call, and the event trace of the call. -/
structure Outcome (α : Type) where
  res : Except SettingsError α
  st : SysState
  tr : List Event
deriving Repr

/-- Embeds `checked_get` (settings.cpp lines 118-127): under the lock, read
the value with the default as fallback, then run the status check. -/
def checked_get (f : StoreFile) (path key fallback : String) :
    Except SettingsError String × List Event :=
  let ret := (alist_get f.persisted key).getD fallback
  let res := match check_status_error f "read" with
    | some e => Except.error e
    | none => Except.ok ret
  (res, [Event.lockAcquire, Event.storeValue key] ++ check_status_events f path
          ++ [Event.lockRelease])

/-- Modelled from the spec: the backing-store engine behind `WrappedQSettings`
(not among the provided sources) flushes the pending write on `sync()`; per
the spec's store abstraction and error-handling design, a flush on a store
reporting an error status leaves the persisted file unchanged, and a
successful flush commits the pending value whole. -/
def sync_apply (f : StoreFile) (key val : String) : StoreFile :=
  if f.status = QStatus.noError then { f with persisted := alist_put f.persisted key val }
  else f

/-- Embeds `checked_set` (settings.cpp lines 129-137): under the lock, record
the value, sync to flush, then run the status check. -/
def checked_set (f : StoreFile) (path key val : String) :
    Except SettingsError Unit × StoreFile × List Event :=
  let f' := sync_apply f key val
  let res := match check_status_error f' "read/write" with
    | some e => Except.error e
    | none => Except.ok ()
  (res, f', [Event.lockAcquire, Event.storeSetValue key val, Event.syncStore]
              ++ check_status_events f' path ++ [Event.lockRelease])

/-- Embeds `mp::Settings::get_default` (settings.cpp lines 188-198): map
lookup, `UnrecognizedSetting` on absence. -/
def Settings.get_default (defaults : List (String × String)) (key : String) :
    Except SettingsError String :=
  match alist_get defaults key with
  | some v => Except.ok v
  | none => Except.error (.unrecognizedSetting key)

/-- Embeds `mp::Settings::get` (settings.cpp lines 175-180): validate the key
via the defaults, open the scope's store, then `checked_get`. -/
def Settings.get (env : Env) (st : SysState) (key : String) : Outcome String :=
  match Settings.get_default (make_defaults env) key with
  | .error e => ⟨.error e, st, []⟩
  | .ok default_ret =>
    let path := file_for env key
    let f := scopeFile st key
    let (res, evs) := checked_get f path key default_ret
    ⟨res, st, Event.openStore path :: evs⟩

/-- The value computation of the validation chain in `mp::Settings::set_aux`
(settings.cpp lines 210-224): the thrown error, or the (possibly normalized or
platform-interpreted) value to persist. -/
def set_aux_val (env : Env) (key val : String) : Except SettingsError String :=
  if key = petenv_key ∧ val ≠ "" ∧ env.valid_hostname val = false then
    Except.error (.invalidSetting key val "Invalid hostname")
  else if key = driver_key ∧ env.is_backend_supported val = false then
    Except.error (.invalidSetting key val "Invalid driver")
  else if key = autostart_key ∨ key = mounts_key then
    let v := interpret_bool val
    if v ≠ "true" ∧ v ≠ "false" then
      Except.error (.invalidSetting key v "Invalid flag, try \"true\" or \"false\"")
    else Except.ok v
  else if key = winterm_key ∨ key = hotkey_key then Except.ok (env.interpret_setting key val)
  else Except.ok val

/-- Embeds `mp::Settings::set_aux` (settings.cpp lines 210-224): run the
validation chain; on acceptance open the scope's store and `checked_set` the
resulting value. -/
def Settings.set_aux (env : Env) (st : SysState) (key val : String) : Outcome Unit :=
  match set_aux_val env key val with
  | .error e => ⟨.error e, st, []⟩
  | .ok v =>
    let path := file_for env key
    let f := scopeFile st key
    let (res, f', evs) := checked_set f path key v
    ⟨res, setScopeFile st key f', Event.openStore path :: evs⟩

/-- Embeds `mp::Settings::set` (settings.cpp lines 182-186): validate the key
via the defaults, then `set_aux`. -/
def Settings.set (env : Env) (st : SysState) (key val : String) : Outcome Unit :=
  match Settings.get_default (make_defaults env) key with
  | .error e => ⟨.error e, st, []⟩
  | .ok _ => Settings.set_aux env st key val

/-- The events of a trace that happen while the call holds the mutex: those
strictly between the lock acquisition and the lock release. -/
def during_lock (tr : List Event) : List Event :=
  ((tr.dropWhile (fun e => e != Event.lockAcquire)).drop 1).takeWhile
    (fun e => e != Event.lockRelease)

/-- JSON leaf values as the manifest parser observes them through
`QJsonValue::toString` and `toInt`: strings, integers, and everything else
(objects, arrays, booleans, null, absent), which both conversions default. -/
inductive JVal where
  | jstr (s : String)
  | jint (n : Int)
  | jother
deriving DecidableEq, Repr

/-- Field lookup in a JSON object. -/
def jfields_get (fs : List (String × JVal)) (k : String) : Option JVal :=
  match fs with
  | [] => none
  | (k', v) :: rest => if k = k' then some v else jfields_get rest k

/-- `QJsonObject::contains`. -/
def jcontains (fs : List (String × JVal)) (k : String) : Bool :=
  (jfields_get fs k).isSome

/-- `QJsonValue::toString`: the string, or empty for anything else. -/
def jToString (v : Option JVal) : String :=
  match v with
  | some (.jstr s) => s
  | _ => ""

/-- `QJsonValue::toInt(def)`: the integer, or the default for anything else. -/
def jToInt (d : Int) (v : Option JVal) : Int :=
  match v with
  | some (.jint n) => n
  | _ => d

/-- One item object under a version's `items` (e.g. `lxd.tar.xz`,
`disk1.img`); a non-object item reads as the empty object. -/
structure JItemObj where
  fields : List (String × JVal)
deriving DecidableEq, Repr

/-- One version object of a product: its `items` object. -/
structure JVersion where
  items : List (String × JItemObj)
deriving DecidableEq, Repr

/-- Item lookup in a version's `items`; `toObject` of a missing entry is the
empty object. -/
def jitems_get (its : List (String × JItemObj)) (k : String) : JItemObj :=
  match its with
  | [] => ⟨[]⟩
  | (k', v) :: rest => if k = k' then v else jitems_get rest k

/-- One product of the manifest, with the fields fromJson reads; `versions`
keeps the object's iteration order. -/
structure JProduct where
  arch : String
  aliases : String
  release : String
  release_title : String
  supported : Bool
  versions : List (String × JVersion)
deriving DecidableEq, Repr

/-- The parsed manifest document fed to `fromJson` (JSON parsing itself is
Qt's, outside the sources). -/
structure ManifestDoc where
  updated : String
  products : List JProduct
deriving DecidableEq, Repr

/-- The record type produced per retained product/version pair. -/
structure VMImageInfo where
  aliases : List String
  os : String
  release : String
  release_title : String
  supported : Bool
  image_location : String
  kernel_location : String
  initrd_location : String
  sha256 : String
  stream_location : String
  version : String
  size : Int
  verify : Bool
deriving DecidableEq, Repr

/-- Error taxonomy of the manifest parser. -/
inductive ManifestError where
  | genericManifest (msg : String)
  | emptyManifest (msg : String)
deriving DecidableEq, Repr

/-- Embeds the `arch_to_manifest` hash (simple_streams_manifest.cpp lines
35-37); `QHash::value` of a missing key is the empty string. -/
def arch_to_manifest (cpu_arch : String) : String :=
  if cpu_arch = "x86_64" then "amd64"
  else if cpu_arch = "arm" then "armhf"
  else if cpu_arch = "arm64" then "arm64"
  else if cpu_arch = "i386" then "i386"
  else if cpu_arch = "power" then "powerpc"
  else if cpu_arch = "power64" then "ppc64el"
  else if cpu_arch = "s390x" then "s390x"
  else ""

/-- Splitting a character list at a separator, keeping empty parts. -/
def splitOnCharKeep (sep : Char) : List Char → List (List Char)
  | [] => [[]]
  | c :: cs =>
    if c = sep then [] :: splitOnCharKeep sep cs
    else
      match splitOnCharKeep sep cs with
      | [] => [[c]]
      | h :: t => (c :: h) :: t

/-- `QString::split(sep)` with its default keep-empty-parts behavior: the
empty string splits to one empty part. -/
def qsplit (s : String) (sep : Char) : List String :=
  (splitOnCharKeep sep s.data).map String.mk

/-- Lexicographic strict comparison of character sequences by code value:
the order `QString::operator<` applies to the (ASCII) version keys. -/
def charLtb : List Char → List Char → Bool
  | [], [] => false
  | [], _ :: _ => true
  | _ :: _, [] => false
  | a :: as, b :: bs =>
    if a.toNat < b.toNat then true
    else if b.toNat < a.toNat then false
    else charLtb as bs

/-- String version of `charLtb`. -/
def qstrLt (a b : String) : Bool := charLtb a.data b.data

/-- Embeds `latest_version_in` (simple_streams_manifest.cpp lines 51-62):
fold over the version keys, keeping the current candidate only when the next
key is strictly smaller. -/
def latest_version_in (versions : List (String × JVersion)) : String :=
  versions.foldl (fun mx vp => if qstrLt vp.1 mx then mx else vp.1) ""

/-- `QString::remove(pat)`: delete every occurrence of `pat`, rescanning from
the removal point. -/
def stripAll (pat : List Char) : List Char → List Char
  | [] => []
  | c :: cs =>
    if pat ≠ [] ∧ pat.isPrefixOf (c :: cs) then
      stripAll pat (List.drop pat.length (c :: cs))
    else
      c :: stripAll pat cs
termination_by l => l.length
decreasing_by
  · rename_i h
    have hp : pat.length ≥ 1 := by
      cases pat with
      | nil => exact absurd rfl h.1
      | cons a as => simp
    simp only [List.length_drop, List.length_cons]
    omega
  · simp

/-- `QFileInfo::fileName`: everything after the last slash. -/
def fileNamePart (p : String) : String :=
  String.mk ((p.data.reverse.takeWhile (fun c => c ≠ '/')).reverse)

/-- `QFileInfo::path`: everything before the last slash, the root itself for
a top-level path, or `.` when there is no slash. -/
def dirPart (p : String) : String :=
  if p.data.contains '/' then
    let rem := ((p.data.reverse.dropWhile (fun c => c ≠ '/')).drop 1).reverse
    if rem = [] then "/" else String.mk rem
  else "."

/-- Embeds `derive_unpacked_file_path_prefix_from` (simple_streams_manifest.cpp
lines 64-76). -/
def derive_unpacked_file_path_from (image_location : String) : String :=
  let file_name := fileNamePart image_location
  let fn1 := String.mk (stripAll "-disk1.img".data file_name.data)
  let fn2 := String.mk (stripAll ".img".data fn1.data)
  (dirPart image_location) ++ "/unpacked/" ++ fn2

/-- The combined-disk checksum the lxd branch of the per-version loop selects
(simple_streams_manifest.cpp lines 131-141): the kvm-image field when present,
else the disk1-image field when present, else the empty string. -/
def lxd_sha (ver : JVersion) : String :=
  if jcontains (jitems_get ver.items "lxd.tar.xz").fields "combined_disk-kvm-img_sha256" then
    jToString (jfields_get (jitems_get ver.items "lxd.tar.xz").fields
      "combined_disk-kvm-img_sha256")
  else if jcontains (jitems_get ver.items "lxd.tar.xz").fields
      "combined_disk1-img_sha256" then
    jToString (jfields_get (jitems_get ver.items "lxd.tar.xz").fields
      "combined_disk1-img_sha256")
  else ""

/-- The body of the per-version loop of `fromJson` (simple_streams_manifest.cpp
lines 114-165): the record this version contributes, or none when it is
skipped (empty items, or, on the lxd driver, an empty checksum). -/
def version_record (driver host_url : String) (product_aliases : List String)
    (release release_title : String) (supported : Bool)
    (latest_version version_string : String) (ver : JVersion) : Option VMImageInfo :=
  if ver.items = [] then none
  else
    let aliases := if version_string = latest_version then product_aliases else []
    if driver = "lxd" then
      if lxd_sha ver = "" then none
      else some ⟨aliases, "Ubuntu", release, release_title, supported, "", "", "",
                 lxd_sha ver, host_url, version_string, -1, true⟩
    else
      let image := jitems_get ver.items "disk1.img"
      let image_location := jToString (jfields_get image.fields "path")
      let sha256 := jToString (jfields_get image.fields "sha256")
      let size := jToInt (-1) (jfields_get image.fields "size")
      let px := derive_unpacked_file_path_from image_location
      some ⟨aliases, "Ubuntu", release, release_title, supported, image_location,
            px ++ "-vmlinuz-generic", px ++ "-initrd-generic", sha256, host_url,
            version_string, size, true⟩

/-- The per-product part of `fromJson`'s loop (simple_streams_manifest.cpp
lines 95-166): skip products of another architecture or with no versions;
otherwise collect the records of its versions, aliases bound to the latest
version. -/
def product_records (driver arch host_url : String) (p : JProduct) : List VMImageInfo :=
  if p.arch ≠ arch then []
  else if p.versions = [] then []
  else
    p.versions.filterMap (fun vp =>
      version_record driver host_url (qsplit p.aliases ',') p.release p.release_title
        p.supported (latest_version_in p.versions) vp.1 vp.2)

/-- Embeds `SimpleStreamsManifest::fromJson` (simple_streams_manifest.cpp
lines 79-184) from the parsed document on: the product checks, the record
collection, and the empty-manifest error. The driver value is the result of
the registry read on line 122, and `cpu_arch` is Qt's reported architecture.
The id/alias lookup map built at the end is not modelled: `VMImageInfo::id`
is defined outside the provided sources. -/
def SimpleStreamsManifest.fromJson (driver cpu_arch host_url : String)
    (doc : ManifestDoc) : Except ManifestError (String × List VMImageInfo) :=
  if doc.products = [] then Except.error (.genericManifest "No products found")
  else
    let arch := arch_to_manifest cpu_arch
    if arch = "" then Except.error (.genericManifest "Unsupported cloud image architecture")
    else
      let products := (doc.products.map (product_records driver arch host_url)).flatten
      if products = [] then Except.error (.emptyManifest "No supported products found.")
      else Except.ok (doc.updated, products)

/-- A concrete instantiation of the external collaborators, used to witness
the theorems on concrete inputs. -/
def sampleEnv : Env where
  default_driver := "qemu"
  default_privileged_mounts := "false"
  hotkey_default_text := "Ctrl+Alt+U"
  extra_settings_defaults := []
  is_backend_supported := fun d => d == "qemu" || d == "lxd"
  interpret_setting := fun _ v => v
  valid_hostname := fun h => h == "primary" || h == "myhost"
  daemon_file_path := "/root/.config/multipassd/multipassd.conf"
  client_file_path := "/home/user/.config/multipass/multipass.conf"

/-- A sample environment whose platform extras override the fixed driver
default. -/
def overrideEnv : Env :=
  { sampleEnv with extra_settings_defaults := [(driver_key, "lxd")] }

/-- A healthy, empty backing file. -/
def cleanFile : StoreFile := ⟨[], QStatus.noError, false, 0⟩

/-- Both scope files healthy and empty. -/
def cleanState : SysState := ⟨cleanFile, cleanFile⟩

/-- A daemon-scope file whose store reports ok while the raw open probe fails
with errno left at 0 (the platforms the source comments on, where errno is
not set on permission denial). -/
def probeZeroFile : StoreFile := ⟨[(driver_key, "qemu")], QStatus.noError, true, 0⟩

/-- System state containing `probeZeroFile` in the daemon scope. -/
def probeZeroState : SysState := ⟨probeZeroFile, cleanFile⟩

/-- An lxd item whose kvm combined-disk checksum field is present but holds
the empty string, while the fallback field holds a real checksum. -/
def cexItem : JItemObj :=
  ⟨[("combined_disk-kvm-img_sha256", JVal.jstr ""),
    ("combined_disk1-img_sha256", JVal.jstr "abc")]⟩

/-- A version carrying `cexItem` under `lxd.tar.xz`. -/
def cexVersion : JVersion := ⟨[("lxd.tar.xz", cexItem)]⟩

/-- A product of the host architecture whose only version is `cexVersion`. -/
def cexProduct : JProduct :=
  ⟨"amd64", "focal,20.04", "focal", "20.04 LTS", true, [("20210001", cexVersion)]⟩

/-- An lxd item with only the fallback combined-disk checksum field. -/
def okItem : JItemObj := ⟨[("combined_disk1-img_sha256", JVal.jstr "abc")]⟩

/-- A version carrying `okItem` under `lxd.tar.xz`. -/
def okVersion : JVersion := ⟨[("lxd.tar.xz", okItem)]⟩

/-- A two-version product used to witness the alias-binding theorems. -/
def twoVersionProduct : JProduct :=
  ⟨"amd64", "focal,20.04", "focal", "20.04 LTS", true,
   [("20210101", okVersion), ("20210202", okVersion)]⟩

/-- Lookup after an `insert_or_assign`: the new value at the assigned key,
unchanged elsewhere. -/
theorem alist_get_put (m : List (String × String)) (k k' v : String) :
    alist_get (alist_put m k' v) k = if k = k' then some v else alist_get m k := by
  induction m with
  | nil => simp [alist_put, alist_get]
  | cons kv rest ih =>
    obtain ⟨k₀, v₀⟩ := kv
    by_cases h0 : k' = k₀
    · subst h0
      by_cases h1 : k = k'
      · subst h1; simp [alist_put, alist_get]
      · simp [alist_put, alist_get, h1]
    · by_cases h1 : k = k₀
      · subst h1
        have : ¬ k = k' := fun h => h0 (h ▸ rfl)
        simp [alist_put, alist_get, h0, this]
      · simp [alist_put, alist_get, h0, h1, ih]

/-- Folding `insert_or_assign` over pairs never loses a key. -/
theorem alist_get_foldl_put_isSome (l : List (String × String)) :
    ∀ (m : List (String × String)) (k : String), (alist_get m k).isSome →
      (alist_get (l.foldl (fun m kv => alist_put m kv.1 kv.2) m) k).isSome := by
  induction l with
  | nil => intro m k h; simpa using h
  | cons kv rest ih =>
    intro m k h
    simp only [List.foldl_cons]
    apply ih
    rw [alist_get_put]
    by_cases hk : k = kv.1 <;> simp [hk, h]

/-- Folding `insert_or_assign` over pairs whose keys avoid `k` leaves the
lookup of `k` unchanged. -/
theorem alist_get_foldl_put_not_mem (l : List (String × String)) :
    ∀ (m : List (String × String)) (k : String), k ∉ l.map Prod.fst →
      alist_get (l.foldl (fun m kv => alist_put m kv.1 kv.2) m) k = alist_get m k := by
  induction l with
  | nil => intro m k _; rfl
  | cons kv rest ih =>
    intro m k h
    simp only [List.map_cons, List.mem_cons] at h
    push_neg at h
    simp only [List.foldl_cons]
    rw [ih _ k h.2, alist_get_put, if_neg h.1]

/-- Every fixed base key stays present in the merged defaults table. -/
theorem make_defaults_base_isSome (env : Env) (k : String)
    (h : k = petenv_key ∨ k = driver_key ∨ k = autostart_key ∨ k = hotkey_key ∨
         k = bridged_interface_key ∨ k = mounts_key) :
    (alist_get (make_defaults env) k).isSome := by
  apply alist_get_foldl_put_isSome
  rcases h with h | h | h | h | h | h <;> subst h <;>
    simp [alist_get, petenv_key, driver_key, autostart_key, hotkey_key,
          bridged_interface_key, mounts_key]

/-- C1: for a key absent from the DefaultsTable, both `get` and `set` fail
with `UnrecognizedSetting`, leave the state untouched, and record no events:
no store is opened and no filesystem access occurs. -/
theorem claim1_unrecognized_key_no_io (env : Env) (st : SysState) (key v : String)
    (h : alist_get (make_defaults env) key = none) :
    Settings.get env st key = ⟨.error (.unrecognizedSetting key), st, []⟩ ∧
    Settings.set env st key v = ⟨.error (.unrecognizedSetting key), st, []⟩ := by
  constructor <;> simp [Settings.get, Settings.set, Settings.get_default, h]

/-- Witness for C1 at the unknown key `bogus`. -/
theorem claim1_witness :
    Settings.get sampleEnv cleanState "bogus" =
      ⟨.error (.unrecognizedSetting "bogus"), cleanState, []⟩ ∧
    Settings.set sampleEnv cleanState "bogus" "x" =
      ⟨.error (.unrecognizedSetting "bogus"), cleanState, []⟩ :=
  claim1_unrecognized_key_no_io sampleEnv cleanState "bogus" "x" (by decide)

/-- A clean status check means: the store reports no error and the file is
not exists-but-unreadable; the operation tag is irrelevant. -/
theorem check_status_error_eq_none (f : StoreFile) (op : String) :
    check_status_error f op = none ↔
      (f.status = QStatus.noError ∧ exists_but_unreadable f = false) := by
  unfold check_status_error
  split
  · rename_i h
    constructor
    · intro hc; cases hc
    · rintro ⟨h1, h2⟩
      rcases h with h | h
      · exact absurd h1 h
      · rw [h2] at h; cases h
  · rename_i h
    push_neg at h
    exact ⟨fun _ => ⟨h.1, by simpa using h.2⟩, fun _ => rfl⟩

/-- Flushing a pending write never changes the reported status. -/
theorem sync_apply_status (f : StoreFile) (k v : String) :
    (sync_apply f k v).status = f.status := by
  unfold sync_apply; split <;> rfl

/-- Flushing a pending write never changes the probe outcome. -/
theorem sync_apply_unreadable (f : StoreFile) (k v : String) :
    exists_but_unreadable (sync_apply f k v) = exists_but_unreadable f := by
  unfold sync_apply exists_but_unreadable; split <;> rfl

/-- On a healthy store the flush commits the pending pair whole. -/
theorem sync_apply_ok (f : StoreFile) (k v : String) (h : f.status = QStatus.noError) :
    (sync_apply f k v).persisted = alist_put f.persisted k v := by
  unfold sync_apply; rw [if_pos h]

/-- On a store reporting an error the flush leaves the file untouched. -/
theorem sync_apply_err (f : StoreFile) (k v : String) (h : f.status ≠ QStatus.noError) :
    (sync_apply f k v).persisted = f.persisted := by
  unfold sync_apply; rw [if_neg h]

/-- Reading back the scope file just replaced for the same key. -/
theorem scopeFile_setScopeFile (st : SysState) (key : String) (f : StoreFile) :
    scopeFile (setScopeFile st key f) key = f := by
  unfold scopeFile setScopeFile
  cases keyScopeIsDaemon key <;> simp

/-- C2: for the boolean-flag keys, `set` normalizes through the alias table
of `interpret_bool` (case-insensitively, `on`/`yes`/`1` to `true` and
`off`/`no`/`0` to `false`); when the normalized result is not exactly
`true`/`false` the call fails with `InvalidSetting` before any I/O, and
otherwise the normalized value, not the original input, is what gets written
to the store. -/
theorem claim2_bool_flag_normalized (env : Env) (st : SysState) (key val : String)
    (hkey : key = autostart_key ∨ key = mounts_key) :
    ((strToLower val = "on" ∨ strToLower val = "yes" ∨ strToLower val = "1") →
      interpret_bool val = "true") ∧
    ((strToLower val = "off" ∨ strToLower val = "no" ∨ strToLower val = "0") →
      interpret_bool val = "false") ∧
    (interpret_bool val ≠ "true" → interpret_bool val ≠ "false" →
      (Settings.set env st key val).res =
        Except.error (.invalidSetting key (interpret_bool val)
          "Invalid flag, try \"true\" or \"false\"") ∧
      (Settings.set env st key val).tr = []) ∧
    ((interpret_bool val = "true" ∨ interpret_bool val = "false") →
      Event.storeSetValue key (interpret_bool val) ∈ (Settings.set env st key val).tr) := by
  have hsome := make_defaults_base_isSome env key (by tauto)
  obtain ⟨d, hd⟩ := Option.isSome_iff_exists.mp hsome
  refine ⟨?_, ?_, ?_, ?_⟩
  · intro h
    unfold interpret_bool
    rcases h with h | h | h <;> simp [h]
  · intro h
    unfold interpret_bool
    rcases h with h | h | h <;> simp [h]
  · intro h1 h2
    have na1 : autostart_key ≠ petenv_key := by decide
    have na2 : autostart_key ≠ driver_key := by decide
    have nm1 : mounts_key ≠ petenv_key := by decide
    have nm2 : mounts_key ≠ driver_key := by decide
    rcases hkey with hk | hk <;> subst hk <;>
      constructor <;>
        simp [Settings.set, Settings.get_default, hd, Settings.set_aux, set_aux_val,
              na1, na2, nm1, nm2, h1, h2]
  · intro h
    have na1 : autostart_key ≠ petenv_key := by decide
    have na2 : autostart_key ≠ driver_key := by decide
    have nm1 : mounts_key ≠ petenv_key := by decide
    have nm2 : mounts_key ≠ driver_key := by decide
    have hv : ¬ (interpret_bool val ≠ "true" ∧ interpret_bool val ≠ "false") := by
      tauto
    rcases hkey with hk | hk <;> subst hk <;>
      simp [Settings.set, Settings.get_default, hd, Settings.set_aux, set_aux_val,
            na1, na2, nm1, nm2, hv, checked_set, check_status_events]

/-- Witness for C2: setting the privileged-mounts flag to `YES`. -/
theorem claim2_witness :
    interpret_bool "YES" = "true" ∧
    Event.storeSetValue mounts_key (interpret_bool "YES") ∈
      (Settings.set sampleEnv cleanState mounts_key "YES").tr := by
  have h := claim2_bool_flag_normalized sampleEnv cleanState mounts_key "YES" (Or.inr rfl)
  exact ⟨h.1 (Or.inr (Or.inl (by decide))), h.2.2.2 (Or.inl (by decide))⟩

/-- C3: for a recognized key and a value the validator accepts (normalizing
it to `n`), a successful `set` followed by `get` with no intervening write
returns exactly the normalized value `n`. -/
theorem claim3_set_then_get (env : Env) (st : SysState) (key v n : String)
    (hn : set_aux_val env key v = Except.ok n)
    (hok : (Settings.set env st key v).res = Except.ok ()) :
    (Settings.get env (Settings.set env st key v).st key).res = Except.ok n := by
  cases hd : alist_get (make_defaults env) key with
  | none =>
    rw [show (Settings.set env st key v).res = Except.error (.unrecognizedSetting key) by
          simp [Settings.set, Settings.get_default, hd]] at hok
    cases hok
  | some d =>
    have hset : Settings.set env st key v =
        ⟨match check_status_error
            (sync_apply (scopeFile st key) key n) "read/write" with
          | some e => Except.error e
          | none => Except.ok (),
         setScopeFile st key (sync_apply (scopeFile st key) key n),
         Event.openStore (file_for env key) ::
           ([Event.lockAcquire, Event.storeSetValue key n, Event.syncStore] ++
             check_status_events (sync_apply (scopeFile st key) key n) (file_for env key) ++
             [Event.lockRelease])⟩ := by
      simp [Settings.set, Settings.get_default, hd, Settings.set_aux, hn, checked_set]
    rw [hset] at hok ⊢
    cases hc : check_status_error (sync_apply (scopeFile st key) key n) "read/write" with
    | some e => rw [hc] at hok; simp at hok
    | none =>
      obtain ⟨hst, hunread⟩ := (check_status_error_eq_none _ _).mp hc
      rw [sync_apply_status] at hst
      have hget : check_status_error (sync_apply (scopeFile st key) key n) "read" = none := by
        rw [check_status_error_eq_none]
        exact ⟨by rw [sync_apply_status]; exact hst, hunread⟩
      simp only [Settings.get, Settings.get_default, hd, checked_get,
                 scopeFile_setScopeFile, hget]
      rw [sync_apply_ok _ _ _ hst, alist_get_put, if_pos rfl]
      rfl

/-- Witness for C3: `set(mounts_key, "YES")` then `get(mounts_key)` yields
the normalized `"true"`. -/
theorem claim3_witness :
    (Settings.get sampleEnv (Settings.set sampleEnv cleanState mounts_key "YES").st
      mounts_key).res = Except.ok "true" :=
  claim3_set_then_get sampleEnv cleanState mounts_key "YES" "true" (by rfl) (by rfl)

/-- A format-error status makes the status check throw the format-error
exception. -/
theorem check_status_error_format (f : StoreFile) (op : String)
    (h : f.status = QStatus.formatError) :
    check_status_error f op = some (.persistentSettings op format_error_msg) := by
  unfold check_status_error
  rw [if_pos (Or.inl (by rw [h]; decide)), if_pos h]

/-- An access-error status makes the status check throw the access-error
exception. -/
theorem check_status_error_access (f : StoreFile) (op : String)
    (h : f.status = QStatus.accessError) :
    check_status_error f op = some (.persistentSettings op access_error_msg) := by
  unfold check_status_error
  rw [if_pos (Or.inl (by rw [h]; decide)), if_neg (by rw [h]; decide)]

/-- A failed probe with a nonzero errno other than ENOENT marks the file as
existing but unreadable. -/
theorem exists_but_unreadable_of (f : StoreFile) (hp : f.probeFail = true)
    (h0 : f.probeErrno ≠ 0) (h2 : f.probeErrno ≠ ENOENT) :
    exists_but_unreadable f = true := by
  simp [exists_but_unreadable, hp, h0, h2]

/-- Even with a clean store status, an exists-but-unreadable file makes the
status check throw the access-error exception. -/
theorem check_status_error_probe (f : StoreFile) (op : String)
    (h : f.status = QStatus.noError) (hu : exists_but_unreadable f = true) :
    check_status_error f op = some (.persistentSettings op access_error_msg) := by
  unfold check_status_error
  rw [if_pos (Or.inr hu), if_neg (by rw [h]; decide)]

/-- C4 counterexample: a daemon file whose store reports ok while the raw
read probe fails with errno left at 0 — an errno other than ENOENT. Per the
claim the call should raise the access-error exception; the code raises
nothing and `get` returns the stored value, because `exists_but_unreadable`
also demands a nonzero errno. -/
theorem claim4_counterexample :
    probeZeroFile.probeFail = true ∧ probeZeroFile.probeErrno ≠ ENOENT ∧
    probeZeroFile.status = QStatus.noError ∧
    scopeFile probeZeroState driver_key = probeZeroFile ∧
    (Settings.get sampleEnv probeZeroState driver_key).res = Except.ok "qemu" := by
  exact ⟨rfl, by decide, rfl, by decide, rfl⟩

/-- C4 (amended): every `get`/`set` ends with status verification — a
format-error status raises the exception tagged "format error", any other
error status raises the one tagged "access error", and when the status is ok
the independent read probe raises the access-error exception when it fails
with a nonzero errno other than ENOENT (a zero errno, left unset by the
platform, does not raise). -/
theorem claim4_status_classification (env : Env) (st : SysState) (key : String)
    (hkey : (alist_get (make_defaults env) key).isSome) :
    ((scopeFile st key).status = QStatus.formatError →
      (Settings.get env st key).res =
        Except.error (.persistentSettings "read" format_error_msg)) ∧
    ((scopeFile st key).status = QStatus.accessError →
      (Settings.get env st key).res =
        Except.error (.persistentSettings "read" access_error_msg)) ∧
    ((scopeFile st key).status = QStatus.noError →
     (scopeFile st key).probeFail = true →
     (scopeFile st key).probeErrno ≠ 0 → (scopeFile st key).probeErrno ≠ ENOENT →
      (Settings.get env st key).res =
        Except.error (.persistentSettings "read" access_error_msg)) ∧
    (∀ v n, set_aux_val env key v = Except.ok n →
      ((scopeFile st key).status = QStatus.formatError →
        (Settings.set env st key v).res =
          Except.error (.persistentSettings "read/write" format_error_msg)) ∧
      ((scopeFile st key).status = QStatus.accessError →
        (Settings.set env st key v).res =
          Except.error (.persistentSettings "read/write" access_error_msg)) ∧
      ((scopeFile st key).status = QStatus.noError →
       (scopeFile st key).probeFail = true →
       (scopeFile st key).probeErrno ≠ 0 → (scopeFile st key).probeErrno ≠ ENOENT →
        (Settings.set env st key v).res =
          Except.error (.persistentSettings "read/write" access_error_msg))) := by
  obtain ⟨d, hd⟩ := Option.isSome_iff_exists.mp hkey
  refine ⟨?_, ?_, ?_, ?_⟩
  · intro h
    simp [Settings.get, Settings.get_default, hd, checked_get,
          check_status_error_format _ _ h]
  · intro h
    simp [Settings.get, Settings.get_default, hd, checked_get,
          check_status_error_access _ _ h]
  · intro h hp h0 h2
    simp [Settings.get, Settings.get_default, hd, checked_get,
          check_status_error_probe _ _ h (exists_but_unreadable_of _ hp h0 h2)]
  · intro v n hn
    refine ⟨?_, ?_, ?_⟩
    · intro h
      have hcs := check_status_error_format (sync_apply (scopeFile st key) key n)
        "read/write" (by rw [sync_apply_status]; exact h)
      simp [Settings.set, Settings.get_default, hd, Settings.set_aux, hn, checked_set, hcs]
    · intro h
      have hcs := check_status_error_access (sync_apply (scopeFile st key) key n)
        "read/write" (by rw [sync_apply_status]; exact h)
      simp [Settings.set, Settings.get_default, hd, Settings.set_aux, hn, checked_set, hcs]
    · intro h hp h0 h2
      have hu : exists_but_unreadable (sync_apply (scopeFile st key) key n) = true := by
        rw [sync_apply_unreadable]
        exact exists_but_unreadable_of _ hp h0 h2
      have hcs := check_status_error_probe (sync_apply (scopeFile st key) key n)
        "read/write" (by rw [sync_apply_status]; exact h) hu
      simp [Settings.set, Settings.get_default, hd, Settings.set_aux, hn, checked_set, hcs]

/-- Witness for the amended C4: a format-error store makes `get` fail tagged
"format error", and an ok store with a probe failing with errno 13 (EACCES)
makes `get` fail tagged "access error". -/
theorem claim4_witness :
    (Settings.get sampleEnv ⟨⟨[], QStatus.formatError, false, 0⟩, cleanFile⟩ driver_key).res =
      Except.error (.persistentSettings "read" format_error_msg) ∧
    (Settings.get sampleEnv ⟨⟨[], QStatus.noError, true, 13⟩, cleanFile⟩ driver_key).res =
      Except.error (.persistentSettings "read" access_error_msg) := by
  constructor
  · exact (claim4_status_classification sampleEnv ⟨⟨[], QStatus.formatError, false, 0⟩,
      cleanFile⟩ driver_key (by decide)).1 (by decide)
  · exact (claim4_status_classification sampleEnv ⟨⟨[], QStatus.noError, true, 13⟩,
      cleanFile⟩ driver_key (by decide)).2.2.1 (by decide) (by decide) (by decide) (by decide)

/-- In a trace shaped like a write trace — three non-status events, then the
flush, then the status query — every take-slice containing the status query
already contains the flush. -/
theorem status_after_sync_aux (a b c : Event) (r : List Event)
    (ha : a ≠ Event.statusQuery) (hb : b ≠ Event.statusQuery) (hc : c ≠ Event.statusQuery) :
    ∀ i, Event.statusQuery ∈ (a :: b :: c :: Event.syncStore :: Event.statusQuery :: r).take i →
      Event.syncStore ∈ (a :: b :: c :: Event.syncStore :: Event.statusQuery :: r).take i := by
  intro i h
  match i with
  | 0 => simp at h
  | 1 =>
    simp only [List.take_succ_cons, List.take_zero, List.mem_singleton] at h
    exact absurd h.symm ha
  | 2 =>
    simp only [List.take_succ_cons, List.take_zero, List.mem_cons,
               List.not_mem_nil, or_false] at h
    rcases h with h | h
    · exact absurd h.symm ha
    · exact absurd h.symm hb
  | 3 =>
    simp only [List.take_succ_cons, List.take_zero, List.mem_cons,
               List.not_mem_nil, or_false] at h
    rcases h with h | h | h
    · exact absurd h.symm ha
    · exact absurd h.symm hb
    · exact absurd h.symm hc
  | (n+4) => simp [List.take_succ_cons]

/-- C5: on every `set` trace, the status query is never reached before the
flush (`sync`), and on every `set` that reaches the I/O stage both the flush
and the status query occur. -/
theorem claim5_sync_before_status (env : Env) (st : SysState) (key val : String) :
    (∀ i, Event.statusQuery ∈ (Settings.set env st key val).tr.take i →
      Event.syncStore ∈ (Settings.set env st key val).tr.take i) ∧
    (∀ n, set_aux_val env key val = Except.ok n →
      (alist_get (make_defaults env) key).isSome →
      Event.syncStore ∈ (Settings.set env st key val).tr ∧
      Event.statusQuery ∈ (Settings.set env st key val).tr) := by
  constructor
  · intro i h
    cases hd : alist_get (make_defaults env) key with
    | none =>
      rw [show (Settings.set env st key val).tr = [] by
            simp [Settings.set, Settings.get_default, hd]] at h
      simp at h
    | some d =>
      cases hn : set_aux_val env key val with
      | error e =>
        rw [show (Settings.set env st key val).tr = [] by
              simp [Settings.set, Settings.get_default, hd, Settings.set_aux, hn]] at h
        simp at h
      | ok n =>
        have htr : (Settings.set env st key val).tr =
            Event.openStore (file_for env key) :: Event.lockAcquire ::
              Event.storeSetValue key n :: Event.syncStore :: Event.statusQuery ::
              ((if (sync_apply (scopeFile st key) key n).status = QStatus.noError
                then [Event.probeOpen (file_for env key)] else []) ++
               [Event.lockRelease]) := by
          simp [Settings.set, Settings.get_default, hd, Settings.set_aux, hn,
                checked_set, check_status_events]
        rw [htr] at h ⊢
        exact status_after_sync_aux _ _ _ _ (by simp) (by simp) (by simp) i h
  · intro n hn hkey
    obtain ⟨d, hd⟩ := Option.isSome_iff_exists.mp hkey
    constructor <;>
      simp [Settings.set, Settings.get_default, hd, Settings.set_aux, hn,
            checked_set, check_status_events]

/-- Witness for C5 on a concrete write: in the trace of
`set(mounts_key, "yes")`, the first five events' slice containing the status
query contains the flush, and both events occur in the trace. -/
theorem claim5_witness :
    Event.syncStore ∈ (Settings.set sampleEnv cleanState mounts_key "yes").tr.take 5 ∧
    Event.syncStore ∈ (Settings.set sampleEnv cleanState mounts_key "yes").tr ∧
    Event.statusQuery ∈ (Settings.set sampleEnv cleanState mounts_key "yes").tr := by
  refine ⟨(claim5_sync_before_status sampleEnv cleanState mounts_key "yes").1 5 (by decide),
          (claim5_sync_before_status sampleEnv cleanState mounts_key "yes").2 "true"
            (by rfl) (by decide)⟩

/-- Event-comparison fact used when evaluating `during_lock` symbolically. -/
theorem bne_open_acquire (p : String) :
    (Event.openStore p != Event.lockAcquire) = true := rfl

/-- Event-comparison fact used when evaluating `during_lock` symbolically. -/
theorem bne_acquire_acquire : (Event.lockAcquire != Event.lockAcquire) = false := rfl

/-- Event-comparison fact used when evaluating `during_lock` symbolically. -/
theorem bne_storeValue_release (k : String) :
    (Event.storeValue k != Event.lockRelease) = true := rfl

/-- Event-comparison fact used when evaluating `during_lock` symbolically. -/
theorem bne_storeSetValue_release (k v : String) :
    (Event.storeSetValue k v != Event.lockRelease) = true := rfl

/-- Event-comparison fact used when evaluating `during_lock` symbolically. -/
theorem bne_sync_release : (Event.syncStore != Event.lockRelease) = true := rfl

/-- Event-comparison fact used when evaluating `during_lock` symbolically. -/
theorem bne_status_release : (Event.statusQuery != Event.lockRelease) = true := rfl

/-- Event-comparison fact used when evaluating `during_lock` symbolically. -/
theorem bne_probe_release (p : String) :
    (Event.probeOpen p != Event.lockRelease) = true := rfl

/-- Event-comparison fact used when evaluating `during_lock` symbolically. -/
theorem bne_release_release : (Event.lockRelease != Event.lockRelease) = false := rfl

/-- C6 counterexample: in the trace of a concrete `get`, the store-open event
occurs but is not among the events executed while the mutex is held — the
store is opened before the lock is acquired (`persistent_settings(key)` runs
before `checked_get` takes the `lock_guard`), against the claim that opening
the backing store executes while holding the lock. -/
theorem claim6_counterexample :
    Event.openStore sampleEnv.daemon_file_path ∈
      (Settings.get sampleEnv cleanState driver_key).tr ∧
    Event.openStore sampleEnv.daemon_file_path ∉
      during_lock (Settings.get sampleEnv cleanState driver_key).tr := by
  exact ⟨by decide, by decide⟩

/-- C6 (amended): one mutex per registry serializes each call's critical
section: the read or write, the flush (on write), and the status check (with
its probe) all execute while the lock is held — but the backing store is
opened before the lock is acquired, as the first event of the call. -/
theorem claim6_lock_discipline (env : Env) (st : SysState) (key : String)
    (hkey : (alist_get (make_defaults env) key).isSome) :
    ((Settings.get env st key).tr.head? = some (Event.openStore (file_for env key))) ∧
    Event.storeValue key ∈ during_lock (Settings.get env st key).tr ∧
    Event.statusQuery ∈ during_lock (Settings.get env st key).tr ∧
    Event.openStore (file_for env key) ∉ during_lock (Settings.get env st key).tr ∧
    (∀ v n, set_aux_val env key v = Except.ok n →
      ((Settings.set env st key v).tr.head? = some (Event.openStore (file_for env key))) ∧
      Event.storeSetValue key n ∈ during_lock (Settings.set env st key v).tr ∧
      Event.syncStore ∈ during_lock (Settings.set env st key v).tr ∧
      Event.statusQuery ∈ during_lock (Settings.set env st key v).tr ∧
      Event.openStore (file_for env key) ∉ during_lock (Settings.set env st key v).tr) := by
  obtain ⟨d, hd⟩ := Option.isSome_iff_exists.mp hkey
  have hget : (Settings.get env st key).tr =
      Event.openStore (file_for env key) :: Event.lockAcquire ::
        Event.storeValue key :: Event.statusQuery ::
        ((if (scopeFile st key).status = QStatus.noError
          then [Event.probeOpen (file_for env key)] else []) ++ [Event.lockRelease]) := by
    simp [Settings.get, Settings.get_default, hd, checked_get, check_status_events]
  have hdlget : during_lock (Settings.get env st key).tr =
      Event.storeValue key :: Event.statusQuery ::
        (if (scopeFile st key).status = QStatus.noError
         then [Event.probeOpen (file_for env key)] else []) := by
    rw [hget]
    by_cases hst : (scopeFile st key).status = QStatus.noError <;>
      simp [during_lock, hst, bne_open_acquire, bne_acquire_acquire,
            bne_storeValue_release, bne_status_release, bne_probe_release,
            List.dropWhile, List.takeWhile]
  refine ⟨by rw [hget]; rfl, ?_, ?_, ?_, ?_⟩
  · rw [hdlget]; simp
  · rw [hdlget]; simp
  · rw [hdlget]
    by_cases hst : (scopeFile st key).status = QStatus.noError <;> simp [hst]
  · intro v n hn
    have hset : (Settings.set env st key v).tr =
        Event.openStore (file_for env key) :: Event.lockAcquire ::
          Event.storeSetValue key n :: Event.syncStore :: Event.statusQuery ::
          ((if (sync_apply (scopeFile st key) key n).status = QStatus.noError
            then [Event.probeOpen (file_for env key)] else []) ++ [Event.lockRelease]) := by
      simp [Settings.set, Settings.get_default, hd, Settings.set_aux, hn,
            checked_set, check_status_events]
    have hdlset : during_lock (Settings.set env st key v).tr =
        Event.storeSetValue key n :: Event.syncStore :: Event.statusQuery ::
          (if (sync_apply (scopeFile st key) key n).status = QStatus.noError
           then [Event.probeOpen (file_for env key)] else []) := by
      rw [hset]
      by_cases hst : (sync_apply (scopeFile st key) key n).status = QStatus.noError <;>
        simp [during_lock, hst, bne_open_acquire, bne_acquire_acquire,
              bne_storeSetValue_release, bne_sync_release, bne_status_release,
              bne_probe_release, List.dropWhile, List.takeWhile]
    refine ⟨by rw [hset]; rfl, ?_, ?_, ?_, ?_⟩
    · rw [hdlset]; simp
    · rw [hdlset]; simp
    · rw [hdlset]; simp
    · rw [hdlset]
      by_cases hst : (sync_apply (scopeFile st key) key n).status = QStatus.noError <;>
        simp [hst]

/-- Witness for the amended C6 on a concrete `set`: the write, the flush and
the status query happen under the lock, while the store open heads the trace
and is not under the lock. -/
theorem claim6_witness :
    (Settings.set sampleEnv cleanState mounts_key "on").tr.head? =
      some (Event.openStore (file_for sampleEnv mounts_key)) ∧
    Event.storeSetValue mounts_key "true" ∈
      during_lock (Settings.set sampleEnv cleanState mounts_key "on").tr ∧
    Event.syncStore ∈ during_lock (Settings.set sampleEnv cleanState mounts_key "on").tr ∧
    Event.statusQuery ∈ during_lock (Settings.set sampleEnv cleanState mounts_key "on").tr ∧
    Event.openStore (file_for sampleEnv mounts_key) ∉
      during_lock (Settings.set sampleEnv cleanState mounts_key "on").tr :=
  (claim6_lock_discipline sampleEnv cleanState mounts_key (by decide)).2.2.2.2
    "on" "true" (by rfl)

/-- A store status other than ok makes the status check throw, tagging format
errors and everything else as access errors. -/
theorem check_status_error_err (f : StoreFile) (op : String)
    (h : f.status ≠ QStatus.noError) :
    check_status_error f op =
      some (.persistentSettings op
        (if f.status = QStatus.formatError then format_error_msg else access_error_msg)) := by
  unfold check_status_error
  rw [if_pos (Or.inl h)]

/-- C7 counterexample: a write on a store reporting ok whose backing file is
unreadable (the read probe fails with errno 13, EACCES). The `set` raises the
access-error exception, yet the flush has already committed: the file ends
holding the new normalized value, not the prior one — against the claim that
any write failing at the I/O/status stage leaves the prior persisted value
intact. -/
theorem claim7_counterexample :
    (Settings.set sampleEnv ⟨⟨[(mounts_key, "false")], QStatus.noError, true, 13⟩,
        cleanFile⟩ mounts_key "on").res =
      Except.error (.persistentSettings "read/write" access_error_msg) ∧
    (scopeFile (Settings.set sampleEnv ⟨⟨[(mounts_key, "false")], QStatus.noError,
        true, 13⟩, cleanFile⟩ mounts_key "on").st mounts_key).persisted =
      [(mounts_key, "true")] ∧
    [(mounts_key, "true")] ≠ [(mounts_key, "false")] := by
  exact ⟨rfl, rfl, by decide⟩

/-- C7 (amended): every failing `set` is all-or-nothing for persisted state —
a validation rejection performs no I/O and leaves state and file untouched; a
write whose flush hits a store error leaves the prior persisted value intact
and raises the persistent-settings exception; a `set` that fails only the
post-flush readability probe raises the access-error exception with the whole
new normalized value already committed; and in all cases the persisted file
ends as either exactly the prior content or exactly the prior content with
the whole normalized value assigned — never a partial mixture. -/
theorem claim7_failing_set_atomic (env : Env) (st : SysState) (key val : String) :
    (∀ e, set_aux_val env key val = Except.error e →
      (alist_get (make_defaults env) key).isSome →
      Settings.set env st key val = ⟨Except.error e, st, []⟩) ∧
    (∀ n, set_aux_val env key val = Except.ok n →
      (alist_get (make_defaults env) key).isSome →
      (scopeFile st key).status ≠ QStatus.noError →
      (scopeFile (Settings.set env st key val).st key).persisted =
        (scopeFile st key).persisted ∧
      ∃ msg, (Settings.set env st key val).res =
        Except.error (.persistentSettings "read/write" msg)) ∧
    (∀ n, set_aux_val env key val = Except.ok n →
      (alist_get (make_defaults env) key).isSome →
      (scopeFile st key).status = QStatus.noError →
      exists_but_unreadable (scopeFile st key) = true →
      (Settings.set env st key val).res =
        Except.error (.persistentSettings "read/write" access_error_msg) ∧
      (scopeFile (Settings.set env st key val).st key).persisted =
        alist_put (scopeFile st key).persisted key n) ∧
    ((scopeFile (Settings.set env st key val).st key).persisted =
        (scopeFile st key).persisted ∨
     ∃ n, set_aux_val env key val = Except.ok n ∧
       (scopeFile (Settings.set env st key val).st key).persisted =
         alist_put (scopeFile st key).persisted key n) := by
  refine ⟨?_, ?_, ?_, ?_⟩
  · intro e he hk
    obtain ⟨d, hd⟩ := Option.isSome_iff_exists.mp hk
    simp [Settings.set, Settings.get_default, hd, Settings.set_aux, he]
  · intro n hn hk hst
    obtain ⟨d, hd⟩ := Option.isSome_iff_exists.mp hk
    have hset : Settings.set env st key val =
        ⟨match check_status_error (sync_apply (scopeFile st key) key n) "read/write" with
          | some e => Except.error e
          | none => Except.ok (),
         setScopeFile st key (sync_apply (scopeFile st key) key n),
         Event.openStore (file_for env key) ::
           ([Event.lockAcquire, Event.storeSetValue key n, Event.syncStore] ++
             check_status_events (sync_apply (scopeFile st key) key n) (file_for env key) ++
             [Event.lockRelease])⟩ := by
      simp [Settings.set, Settings.get_default, hd, Settings.set_aux, hn, checked_set]
    rw [hset]
    constructor
    · rw [show (⟨_, setScopeFile st key (sync_apply (scopeFile st key) key n), _⟩ :
            Outcome Unit).st = setScopeFile st key (sync_apply (scopeFile st key) key n)
            from rfl,
          scopeFile_setScopeFile]
      exact sync_apply_err _ _ _ hst
    · refine ⟨if (sync_apply (scopeFile st key) key n).status = QStatus.formatError
              then format_error_msg else access_error_msg, ?_⟩
      rw [show (⟨match check_status_error (sync_apply (scopeFile st key) key n)
                  "read/write" with
                | some e => Except.error e
                | none => Except.ok (), _, _⟩ : Outcome Unit).res =
            match check_status_error (sync_apply (scopeFile st key) key n)
              "read/write" with
            | some e => Except.error e
            | none => Except.ok () from rfl,
          check_status_error_err _ _ (by rw [sync_apply_status]; exact hst)]
  · intro n hn hk hst hu
    obtain ⟨d, hd⟩ := Option.isSome_iff_exists.mp hk
    have hcs := check_status_error_probe (sync_apply (scopeFile st key) key n)
      "read/write" (by rw [sync_apply_status]; exact hst)
      (by rw [sync_apply_unreadable]; exact hu)
    constructor
    · simp [Settings.set, Settings.get_default, hd, Settings.set_aux, hn,
            checked_set, hcs]
    · have hst' : (Settings.set env st key val).st =
          setScopeFile st key (sync_apply (scopeFile st key) key n) := by
        simp [Settings.set, Settings.get_default, hd, Settings.set_aux, hn, checked_set]
      rw [hst', scopeFile_setScopeFile]
      exact sync_apply_ok _ _ _ hst
  · cases hd : alist_get (make_defaults env) key with
    | none =>
      left
      simp [Settings.set, Settings.get_default, hd]
    | some d =>
      cases hn : set_aux_val env key val with
      | error e =>
        left
        simp [Settings.set, Settings.get_default, hd, Settings.set_aux, hn]
      | ok n =>
        have hst' : (Settings.set env st key val).st =
            setScopeFile st key (sync_apply (scopeFile st key) key n) := by
          simp [Settings.set, Settings.get_default, hd, Settings.set_aux, hn, checked_set]
        rw [hst', scopeFile_setScopeFile]
        by_cases hok : (scopeFile st key).status = QStatus.noError
        · right
          exact ⟨n, rfl, sync_apply_ok _ _ _ hok⟩
        · left
          exact sync_apply_err _ _ _ hok

/-- Witness for the amended C7: `set(driver_key, "bogus-driver")` fails with
`InvalidSetting`, leaving state untouched and performing no I/O; a write on a
store reporting access-error leaves the persisted content intact while
raising the persistent-settings exception; and a write failing only the
readability probe raises the access-error exception with the whole new value
committed. -/
theorem claim7_witness :
    Settings.set sampleEnv cleanState driver_key "bogus-driver" =
      ⟨Except.error (.invalidSetting driver_key "bogus-driver" "Invalid driver"),
       cleanState, []⟩ ∧
    ((scopeFile (Settings.set sampleEnv
        ⟨⟨[(driver_key, "qemu")], QStatus.accessError, false, 0⟩, cleanFile⟩
        driver_key "lxd").st driver_key).persisted = [(driver_key, "qemu")] ∧
     ∃ msg, (Settings.set sampleEnv
        ⟨⟨[(driver_key, "qemu")], QStatus.accessError, false, 0⟩, cleanFile⟩
        driver_key "lxd").res =
          Except.error (.persistentSettings "read/write" msg)) ∧
    ((Settings.set sampleEnv ⟨⟨[(mounts_key, "false")], QStatus.noError, true, 13⟩,
        cleanFile⟩ mounts_key "off").res =
      Except.error (.persistentSettings "read/write" access_error_msg) ∧
     (scopeFile (Settings.set sampleEnv ⟨⟨[(mounts_key, "false")], QStatus.noError,
        true, 13⟩, cleanFile⟩ mounts_key "off").st mounts_key).persisted =
      alist_put [(mounts_key, "false")] mounts_key "false") := by
  refine ⟨?_, ?_, ?_⟩
  · exact (claim7_failing_set_atomic sampleEnv cleanState driver_key "bogus-driver").1
      (.invalidSetting driver_key "bogus-driver" "Invalid driver") (by rfl) (by decide)
  · exact (claim7_failing_set_atomic sampleEnv
      ⟨⟨[(driver_key, "qemu")], QStatus.accessError, false, 0⟩, cleanFile⟩
      driver_key "lxd").2.1 "lxd" (by rfl) (by decide) (by decide)
  · exact (claim7_failing_set_atomic sampleEnv
      ⟨⟨[(mounts_key, "false")], QStatus.noError, true, 13⟩, cleanFile⟩
      mounts_key "off").2.2.1 "false" (by rfl) (by decide) (by rfl) (by rfl)

/-- The version comparison is irreflexive. -/
theorem charLtb_irrefl (l : List Char) : charLtb l l = false := by
  induction l with
  | nil => rfl
  | cons c cs ih => simp [charLtb, ih]

/-- Chained non-strict domination: if `b` does not exceed `a` and `c` does
not exceed `b`, then `c` does not exceed `a`. -/
theorem charLtb_ge_trans :
    ∀ (a b c : List Char), charLtb a b = false → charLtb b c = false →
      charLtb a c = false := by
  intro a
  induction a with
  | nil =>
    intro b c hab hbc
    cases b with
    | nil => exact hbc
    | cons b0 bs => cases hab
  | cons a0 as ih =>
    intro b c hab hbc
    cases b with
    | nil =>
      cases c with
      | nil => rfl
      | cons c0 cs => cases hbc
    | cons b0 bs =>
      cases c with
      | nil => rfl
      | cons c0 cs =>
        simp only [charLtb] at hab hbc ⊢
        have h1 : ¬ a0.toNat < b0.toNat := by
          intro h; rw [if_pos h] at hab; cases hab
        have h2 : ¬ b0.toNat < c0.toNat := by
          intro h; rw [if_pos h] at hbc; cases hbc
        rw [if_neg h1] at hab
        rw [if_neg h2] at hbc
        rw [if_neg (show ¬ a0.toNat < c0.toNat by omega)]
        by_cases h3 : c0.toNat < a0.toNat
        · rw [if_pos h3]
        · rw [if_neg h3]
          rw [if_neg (show ¬ b0.toNat < a0.toNat by omega)] at hab
          rw [if_neg (show ¬ c0.toNat < b0.toNat by omega)] at hbc
          exact ih bs cs hab hbc

/-- The version comparison is asymmetric. -/
theorem charLtb_asymm :
    ∀ (a b : List Char), charLtb a b = true → charLtb b a = false := by
  intro a
  induction a with
  | nil =>
    intro b hab
    cases b with
    | nil => cases hab
    | cons b0 bs => rfl
  | cons a0 as ih =>
    intro b hab
    cases b with
    | nil => cases hab
    | cons b0 bs =>
      simp only [charLtb] at hab ⊢
      by_cases h1 : a0.toNat < b0.toNat
      · rw [if_neg (show ¬ b0.toNat < a0.toNat by omega), if_pos h1]
      · rw [if_neg h1] at hab
        by_cases h2 : b0.toNat < a0.toNat
        · rw [if_pos h2] at hab; cases hab
        · rw [if_neg h2] at hab
          rw [if_neg (show ¬ b0.toNat < a0.toNat by omega),
              if_neg (show ¬ a0.toNat < b0.toNat by omega)]
          exact ih bs hab

/-- The fold of `latest_version_in` is never exceeded by its seed nor by any
version key it passes over. -/
theorem latest_version_fold_ge (l : List (String × JVersion)) :
    ∀ (init : String),
      qstrLt (l.foldl (fun mx vp => if qstrLt vp.1 mx then mx else vp.1) init) init
        = false ∧
      ∀ vp ∈ l,
        qstrLt (l.foldl (fun mx vp => if qstrLt vp.1 mx then mx else vp.1) init) vp.1
          = false := by
  induction l with
  | nil => intro init; exact ⟨charLtb_irrefl _, by simp⟩
  | cons hd tl ih =>
    intro init
    have step1 : qstrLt (if qstrLt hd.1 init then init else hd.1) init = false := by
      by_cases h : qstrLt hd.1 init = true
      · rw [if_pos h]; exact charLtb_irrefl _
      · rw [if_neg h]; exact eq_false_of_ne_true h
    have step2 : qstrLt (if qstrLt hd.1 init then init else hd.1) hd.1 = false := by
      by_cases h : qstrLt hd.1 init = true
      · rw [if_pos h]; exact charLtb_asymm _ _ h
      · rw [if_neg h]; exact charLtb_irrefl _
    constructor
    · simp only [List.foldl_cons]
      exact charLtb_ge_trans _ _ _ (ih _).1 step1
    · intro vp hvp
      simp only [List.foldl_cons]
      rcases List.mem_cons.mp hvp with h | h
      · subst h
        exact charLtb_ge_trans _ _ _ (ih _).1 step2
      · exact (ih _).2 vp h

/-- No version key of the object exceeds `latest_version_in` of it. -/
theorem latest_version_in_ge (l : List (String × JVersion)) :
    ∀ vp ∈ l, qstrLt (latest_version_in l) vp.1 = false :=
  (latest_version_fold_ge l "").2

/-- Any record `version_record` produces carries the version string of its
version entry, and the product aliases exactly when that version is the
latest one. -/
theorem version_record_fields (driver host_url : String) (pa : List String)
    (rel rt : String) (sup : Bool) (lv vs : String) (ver : JVersion) (r : VMImageInfo)
    (h : version_record driver host_url pa rel rt sup lv vs ver = some r) :
    r.version = vs ∧ r.aliases = (if vs = lv then pa else []) := by
  by_cases hi : ver.items = []
  · simp [version_record, hi] at h
  · by_cases hdrv : driver = "lxd"
    · by_cases hsha : lxd_sha ver = ""
      · simp [version_record, hi, hdrv, hsha] at h
      · simp only [version_record, hi, hdrv, hsha, if_true, if_false,
                   ite_false, ite_true, Option.some_inj] at h
        subst h
        exact ⟨rfl, rfl⟩
    · simp only [version_record] at h
      rw [if_neg hi, if_neg hdrv, Option.some_inj] at h
      subst h
      exact ⟨rfl, rfl⟩

/-- C8: among the catalog records a product contributes, the product's alias
names are attached exactly to the record(s) of the product's latest version —
latest by lexicographic comparison of version strings, under which no version
key of the product exceeds it — and every other version's record carries an
empty alias list. -/
theorem claim8_aliases_only_latest (driver arch host_url : String) (p : JProduct)
    (r : VMImageInfo) (hr : r ∈ product_records driver arch host_url p) :
    (r.version ≠ latest_version_in p.versions → r.aliases = []) ∧
    (r.version = latest_version_in p.versions → r.aliases = qsplit p.aliases ',') ∧
    (∀ vp ∈ p.versions, qstrLt (latest_version_in p.versions) vp.1 = false) := by
  unfold product_records at hr
  split at hr
  · simp at hr
  · split at hr
    · simp at hr
    · obtain ⟨vp, hvp, hrec⟩ := List.mem_filterMap.mp hr
      obtain ⟨hver, hal⟩ := version_record_fields _ _ _ _ _ _ _ _ _ _ hrec
      refine ⟨?_, ?_, latest_version_in_ge p.versions⟩
      · intro hne
        rw [hal, if_neg (by rw [← hver]; exact hne)]
      · intro heq
        rw [hal, if_pos (by rw [← hver]; exact heq)]

/-- Witness for C8 on a concrete two-version product: the record of the
earlier version carries no aliases, the record of the latest carries the
product's aliases. -/
theorem claim8_witness :
    (⟨[], "Ubuntu", "focal", "20.04 LTS", true, "", "", "", "abc", "url",
      "20210101", -1, true⟩ : VMImageInfo).aliases = ([] : List String) ∧
    (⟨qsplit "focal,20.04" ',', "Ubuntu", "focal", "20.04 LTS", true, "", "", "",
      "abc", "url", "20210202", -1, true⟩ : VMImageInfo).aliases =
        qsplit twoVersionProduct.aliases ',' := by
  constructor
  · exact (claim8_aliases_only_latest "lxd" "amd64" "url" twoVersionProduct
      ⟨[], "Ubuntu", "focal", "20.04 LTS", true, "", "", "", "abc", "url",
       "20210101", -1, true⟩ (by decide)).1 (by decide)
  · exact (claim8_aliases_only_latest "lxd" "amd64" "url" twoVersionProduct
      ⟨qsplit "focal,20.04" ',', "Ubuntu", "focal", "20.04 LTS", true, "", "", "",
       "abc", "url", "20210202", -1, true⟩ (by decide)).2.1 (by decide)

/-- Folding `insert_or_assign` over pairs with distinct keys makes each pair's
value the final binding of its key. -/
theorem alist_get_foldl_put_mem (l : List (String × String)) :
    ∀ (m : List (String × String)) (k v : String), (k, v) ∈ l →
      (l.map Prod.fst).Nodup →
      alist_get (l.foldl (fun m kv => alist_put m kv.1 kv.2) m) k = some v := by
  induction l with
  | nil => intro m k v h _; simp at h
  | cons kv tl ih =>
    intro m k v h hnd
    simp only [List.map_cons, List.nodup_cons] at hnd
    rcases List.mem_cons.mp h with heq | hmem
    · subst heq
      simp only [List.foldl_cons]
      rw [alist_get_foldl_put_not_mem tl _ k (by simpa using hnd.1),
          alist_get_put, if_pos rfl]
    · simp only [List.foldl_cons]
      exact ih _ k v hmem hnd.2

/-- C9: the platform-supplied extra defaults are merged after the fixed map
with overwrite semantics — any key they carry ends bound to the platform's
value in the defaults table, whether or not the fixed map also had it. -/
theorem claim9_extra_defaults_override (env : Env) (k v : String)
    (hmem : (k, v) ∈ env.extra_settings_defaults)
    (hnd : (env.extra_settings_defaults.map Prod.fst).Nodup) :
    alist_get (make_defaults env) k = some v :=
  alist_get_foldl_put_mem env.extra_settings_defaults _ k v hmem hnd

/-- Witness for C9: an environment whose platform extras rebind the driver
key to `lxd` while the fixed map binds it to the platform default; the
defaults table ends with the platform's `lxd`. -/
theorem claim9_witness :
    alist_get (make_defaults overrideEnv) driver_key = some "lxd" :=
  claim9_extra_defaults_override overrideEnv driver_key "lxd" (by decide) (by decide)

/-- C10 counterexample: an lxd version whose `lxd.tar.xz` item does carry the
field `combined_disk-kvm-img_sha256` — holding the empty string — and a
nonempty fallback `combined_disk1-img_sha256`. Per the claim the checksum is
taken from the present kvm field (only versions with neither field are
skipped), so a record should result; the code instead skips the version (its
selected checksum is empty) and, it being the only candidate, throws
`EmptyManifestException`. -/
theorem claim10_counterexample :
    jcontains (jitems_get cexVersion.items "lxd.tar.xz").fields
      "combined_disk-kvm-img_sha256" = true ∧
    jToString (jfields_get (jitems_get cexVersion.items "lxd.tar.xz").fields
      "combined_disk1-img_sha256") = "abc" ∧
    product_records "lxd" "amd64" "http://host" cexProduct = [] ∧
    SimpleStreamsManifest.fromJson "lxd" "x86_64" "http://host" ⟨"2021", [cexProduct]⟩ =
      Except.error (.emptyManifest "No supported products found.") := by
  exact ⟨rfl, rfl, rfl, rfl⟩

/-- C10 (amended): on the lxd driver the checksum of a version is selected
as the `combined_disk-kvm-img_sha256` field if present, else the
`combined_disk1-img_sha256` field if present, else empty; the version yields
a record (carrying that checksum) exactly when the selected checksum is
nonempty — in particular a version with neither field, or whose present field
holds the empty string, is silently skipped — and when no records remain at
all the parse fails with `EmptyManifestException`. -/
theorem claim10_lxd_sha_selection (host_url : String) (pa : List String)
    (rel rt : String) (sup : Bool) (lv vs : String) (ver : JVersion)
    (hitems : ver.items ≠ []) :
    ((jcontains (jitems_get ver.items "lxd.tar.xz").fields
        "combined_disk-kvm-img_sha256" = true →
      lxd_sha ver = jToString (jfields_get (jitems_get ver.items "lxd.tar.xz").fields
        "combined_disk-kvm-img_sha256")) ∧
     (jcontains (jitems_get ver.items "lxd.tar.xz").fields
        "combined_disk-kvm-img_sha256" = false →
      jcontains (jitems_get ver.items "lxd.tar.xz").fields
        "combined_disk1-img_sha256" = true →
      lxd_sha ver = jToString (jfields_get (jitems_get ver.items "lxd.tar.xz").fields
        "combined_disk1-img_sha256")) ∧
     (jcontains (jitems_get ver.items "lxd.tar.xz").fields
        "combined_disk-kvm-img_sha256" = false →
      jcontains (jitems_get ver.items "lxd.tar.xz").fields
        "combined_disk1-img_sha256" = false →
      lxd_sha ver = "")) ∧
    (lxd_sha ver ≠ "" →
      ∃ r, version_record "lxd" host_url pa rel rt sup lv vs ver = some r ∧
        r.sha256 = lxd_sha ver ∧ r.version = vs) ∧
    (lxd_sha ver = "" →
      version_record "lxd" host_url pa rel rt sup lv vs ver = none) ∧
    (∀ (driver cpu_arch hurl : String) (doc : ManifestDoc),
      doc.products ≠ [] → arch_to_manifest cpu_arch ≠ "" →
      (doc.products.map
        (product_records driver (arch_to_manifest cpu_arch) hurl)).flatten = [] →
      SimpleStreamsManifest.fromJson driver cpu_arch hurl doc =
        Except.error (.emptyManifest "No supported products found.")) := by
  refine ⟨⟨?_, ?_, ?_⟩, ?_, ?_, ?_⟩
  · intro h
    unfold lxd_sha
    rw [if_pos h]
  · intro h1 h2
    unfold lxd_sha
    rw [if_neg (by simp [h1]), if_pos h2]
  · intro h1 h2
    unfold lxd_sha
    rw [if_neg (by simp [h1]), if_neg (by simp [h2])]
  · intro hne
    refine ⟨⟨if vs = lv then pa else [], "Ubuntu", rel, rt, sup, "", "", "",
             lxd_sha ver, host_url, vs, -1, true⟩, ?_, rfl, rfl⟩
    unfold version_record
    rw [if_neg hitems, if_pos rfl, if_neg hne]
  · intro heq
    unfold version_record
    rw [if_neg hitems, if_pos rfl, if_pos heq]
  · intro driver cpu_arch hurl doc hp harch hrecs
    unfold SimpleStreamsManifest.fromJson
    rw [if_neg hp, if_neg harch, if_pos hrecs]

/-- Witness for the amended C10: a version whose item has only the fallback
checksum field yields a record carrying that checksum, and the empty-string
counterexample version yields none. -/
theorem claim10_witness :
    (∃ r, version_record "lxd" "http://host" (qsplit "focal,20.04" ',') "focal"
        "20.04 LTS" true "20210202" "20210101" okVersion = some r ∧
      r.sha256 = lxd_sha okVersion ∧ r.version = "20210101") ∧
    version_record "lxd" "http://host" (qsplit "focal,20.04" ',') "focal"
        "20.04 LTS" true "20210001" "20210001" cexVersion = none := by
  constructor
  · exact (claim10_lxd_sha_selection "http://host" (qsplit "focal,20.04" ',') "focal"
      "20.04 LTS" true "20210202" "20210101" okVersion (by decide)).2.1 (by decide)
  · exact (claim10_lxd_sha_selection "http://host" (qsplit "focal,20.04" ',') "focal"
      "20.04 LTS" true "20210001" "20210001" cexVersion (by decide)).2.2.1 (by decide)
